import Mathlib

/-!
Verification of the single-flight download orchestration core of the
Downloader repository (`Downloader/downloader_core.py`).

The `DownloadManager` class is embedded as a pure state-transition model:

* callback registration (`progress_callback`, `completion_callback`,
  `error_callback`) is modelled by three booleans, since only the presence
  of a callback influences control flow; an invocation of a callback is
  modelled as an emitted `Event` in the returned trace;
* the external world (the `requests` response for images, the `yt_dlp`
  engine for video/audio, `os.path.isdir`) is modelled by explicit
  environment records describing what the libraries return or raise;
* each Python method becomes a Lean function from the manager state and an
  environment to the list of events it delivers plus the successor state.
-/

namespace Downloader

/-- An invocation of one of the three registered callbacks.
`progress` models the dict literal built at
`_download_image` (keys `status`, `total_bytes`, `downloaded_bytes`,
`_percent_str`, `_eta_str`); `ydl` models a raw yt-dlp progress dict
forwarded unchanged by `_yt_dlp_hook`; `complete` and `error` model
invocations of `completion_callback` and `error_callback`. -/
inductive Event
  | progress (status : String) (total downloaded : Nat) (percent eta : String)
  | ydl (d : String)
  | complete (path : String)
  | error (msg : String)
  deriving DecidableEq

/-- The mutable state of a `DownloadManager` instance: which callbacks were
registered at `__init__`, and the `is_downloading` busy flag. -/
structure MState where
  progressOn : Bool
  completionOn : Bool
  errorOn : Bool
  is_downloading : Bool
  deriving DecidableEq

/-- `DownloadManager()` with all three callback arguments left at their
default `None`, and `is_downloading = False` (`__init__`). -/
def initState : MState := ⟨false, false, false, false⟩

/-- `self.is_downloading = False`, as executed in the `finally` blocks and
in the invalid-type branch of `_run_download_task`. -/
def clearBusy (s : MState) : MState := { s with is_downloading := false }

/-- Everything after the first occurrence of `://`, or `none` when the
separator does not occur (character-level helper for `urlparse`). -/
def charsAfterSchemeSep : List Char → Option (List Char)
  | [] => none
  | ':' :: '/' :: '/' :: rest => some rest
  | _ :: rest => charsAfterSchemeSep rest

/-- `urllib.parse.urlparse(url).path`: the fragment (after the first `#`)
and the query (after the first `?`) are split off; if a
scheme-with-authority prefix (`scheme://netloc`) is present it is removed
and the path starts at the first `/` after the netloc; without `://` the
remainder is the path. -/
def urlparse_path (url : String) : String :=
  let s := (url.data.takeWhile (· ≠ '#')).takeWhile (· ≠ '?')
  match charsAfterSchemeSep s with
  | none => ⟨s⟩
  | some after => ⟨after.dropWhile (· ≠ '/')⟩

/-- `os.path.basename(p)`: the part after the last `/`. -/
def basename (p : String) : String := ⟨(p.data.reverse.takeWhile (· ≠ '/')).reverse⟩

/-- `os.path.join(a, b)` for the POSIX separator: an absolute second
component replaces the first; otherwise the separator is inserted unless
already present. -/
def pathJoin (a b : String) : String :=
  match b.data with
  | '/' :: _ => b
  | _ =>
      match a.data.getLast? with
      | none => b
      | some '/' => a ++ b
      | some _ => a ++ "/" ++ b

/-- Filename inference of `_download_image`:
`filename = os.path.basename(urlparse(url).path)`, replaced by the default
`"downloaded_image.jpg"` when empty (`not filename`) or without a `.`
(`'.' not in filename`). -/
def imageFilename (url : String) : String :=
  let filename := basename (urlparse_path url)
  if filename.data.isEmpty || !(filename.data.contains '.') then
    "downloaded_image.jpg"
  else filename

/-- The f-string `f"{downloaded_size / total_size * 100:.1f}%"`: the
percentage rendered with one decimal digit. The float division and `:.1f`
formatting are modelled by rounding `downloaded * 1000 / total` to the
nearest integer number of tenths (half away from zero); this agrees with
CPython's output whenever the decimal in question is not a representation
tie of the binary float. Only called with `0 < total`. -/
def percentStr (downloaded total : Nat) : String :=
  let tenths := (downloaded * 2000 + total) / (2 * total)
  toString (tenths / 10) ++ "." ++ toString (tenths % 10) ++ "%"

/-- The `_percent_str` field: the conditional expression
`... if total_size > 0 else "N/A"`. -/
def percentField (downloaded total : Nat) : String :=
  if 0 < total then percentStr downloaded total else "N/A"

/-- The progress dict built for one chunk in `_download_image`. -/
def mkProgress (total downloaded : Nat) : Event :=
  Event.progress "downloading" total downloaded (percentField downloaded total) "N/A"

/-- One step of `response.iter_content(chunk_size=8192)` together with the
body of the `for` loop: either a chunk of `size` bytes is yielded and
written, or the iteration / write raises (`network = true` for a
`requests.exceptions.RequestException`, `false` for any other exception
such as an `OSError` from `f.write`). -/
inductive StreamStep
  | chunk (size : Nat)
  | fail (network : Bool) (msg : String)
  deriving DecidableEq

/-- The mocked behaviour of `requests.get(url, stream=True, timeout=10)`
followed by `response.raise_for_status()`:
`connect = some exc-text` when either of them raises a
`requests.exceptions.RequestException`; on success, the
`content-length` header (absent or its parsed value) and the body stream. -/
structure ImageEnv where
  connect : Option String
  contentLength : Option Nat
  body : List StreamStep
  deriving DecidableEq

/-- The `for chunk in response.iter_content(...)` loop of
`_download_image`: empty chunks are skipped (`if not chunk: continue`),
each written chunk advances `downloaded_size` and, when a progress
callback is registered, emits one progress dict; an exception aborts the
loop. Returns the emitted events and the exception, if any. -/
def imageLoop (pOn : Bool) (total : Nat) :
    List StreamStep → Nat → List Event × Option (Bool × String)
  | [], _ => ([], none)
  | StreamStep.chunk 0 :: rest, dl => imageLoop pOn total rest dl
  | StreamStep.chunk (n + 1) :: rest, dl =>
      let dl2 := dl + (n + 1)
      let r := imageLoop pOn total rest dl2
      ((if pOn then [mkProgress total dl2] else []) ++ r.1, r.2)
  | StreamStep.fail nw m :: _, _ => ([], some (nw, m))

/-- `f"Network error downloading image from {url}: {e}"`. -/
def netErrMsg (url e : String) : String :=
  "Network error downloading image from " ++ url ++ ": " ++ e

/-- `f"Error downloading image from {url}: {e}"`. -/
def genErrMsg (url e : String) : String :=
  "Error downloading image from " ++ url ++ ": " ++ e

/-- `DownloadManager._download_image(url, output_path)`: connect, derive
the filename, stream the body with progress reports, then exactly one of
the completion callback (on success) or the error callback (on any
exception); the `finally` block clears `is_downloading` on every path. -/
def download_image (s : MState) (url output_path : String) (env : ImageEnv) :
    List Event × MState :=
  match env.connect with
  | some e =>
      ((if s.errorOn then [Event.error (netErrMsg url e)] else []), clearBusy s)
  | none =>
      let file_path := pathJoin output_path (imageFilename url)
      let total := env.contentLength.getD 0
      let r := imageLoop s.progressOn total env.body 0
      match r.2 with
      | some (nw, m) =>
          (r.1 ++ (if s.errorOn then
            [Event.error (if nw then netErrMsg url m else genErrMsg url m)] else []),
           clearBusy s)
      | none =>
          (r.1 ++ (if s.completionOn then [Event.complete file_path] else []),
           clearBusy s)

/-- One entry of the `postprocessors` list of yt-dlp options. -/
structure Postprocessor where
  key : String
  preferredcodec : String
  preferredquality : String
  deriving DecidableEq

/-- The `ydl_opts` dict assembled by `_download_video_audio`. -/
structure YdlOpts where
  outtmpl : String
  retries : Nat
  fragment_retries : Nat
  ignoreerrors : Bool
  format : String
  postprocessors : List Postprocessor
  extract_audio : Bool
  deriving DecidableEq

/-- The construction of `ydl_opts` in `_download_video_audio`: the base
dict, updated for `download_type == 'audio'` with the audio-only format
and the FFmpeg mp3 extraction postprocessor. -/
def buildYdlOpts (output_path download_type : String) : YdlOpts :=
  let base : YdlOpts :=
    { outtmpl := pathJoin output_path "%(title)s.%(ext)s"
      retries := 3
      fragment_retries := 3
      ignoreerrors := true
      format := "bestvideo[ext=mp4]+bestaudio[ext=m4a]/best[ext=mp4]/best"
      postprocessors := []
      extract_audio := false }
  if download_type = "audio" then
    { base with
      format := "bestaudio/best"
      postprocessors := [⟨"FFmpegExtractAudio", "mp3", "192"⟩]
      extract_audio := true }
  else base

/-- The invocation `yt_dlp.YoutubeDL(ydl_opts)` / `ydl.download([url])`
performed by `_download_video_audio`. -/
structure EngineCall where
  opts : YdlOpts
  urls : List String
  deriving DecidableEq

/-- Mocked behaviour of the yt-dlp engine for one `download` call: the
progress dicts it pushes through the registered hook (as opaque payloads),
and `result = some e-text` when `YoutubeDL(...)` or `download` raises. -/
structure VAEnv where
  hooks : List String
  result : Option String
  deriving DecidableEq

/-- `DownloadManager._download_video_audio(url, output_path,
download_type)`: builds `ydl_opts`, runs the engine (each native hook call
is forwarded to the progress callback by `_yt_dlp_hook` when one is
registered), then the completion callback on normal return or the error
callback on an exception; the `finally` block clears `is_downloading`. -/
def download_video_audio (s : MState) (url output_path download_type : String)
    (env : VAEnv) : List Event × Option EngineCall × MState :=
  let evs := if s.progressOn then env.hooks.map Event.ydl else []
  let outcome :=
    match env.result with
    | none =>
        if s.completionOn then
          [Event.complete ("Download complete for " ++ url ++ " (check " ++
            output_path ++ ")")]
        else []
    | some e =>
        if s.errorOn then
          [Event.error ("Error downloading " ++ url ++ ": " ++ e)]
        else []
  (evs ++ outcome, some ⟨buildYdlOpts output_path download_type, [url]⟩, clearBusy s)

/-- The environment a worker run may consult: the engine mock for the
video/audio branch and the HTTP mock for the image branch. -/
structure WorkerEnv where
  va : VAEnv
  img : ImageEnv
  deriving DecidableEq

/-- `DownloadManager._run_download_task(url, download_type, output_dir)`:
dispatch on the download type; an unrecognised type reports an error and
resets `is_downloading`. Returns the events delivered by the worker, the
engine invocation made (if any), and the final state. -/
def run_download_task (s : MState) (url download_type output_dir : String)
    (env : WorkerEnv) : List Event × Option EngineCall × MState :=
  if download_type = "video" ∨ download_type = "audio" then
    download_video_audio s url output_dir download_type env.va
  else if download_type = "image" then
    let r := download_image s url output_dir env.img
    (r.1, none, r.2)
  else
    ((if s.errorOn then [Event.error ("Invalid download type: " ++ download_type)]
      else []), none, clearBusy s)

/-- The message of the busy rejection in `download_content`. -/
def busyMsg : String := "A download is already in progress. Please wait."

/-- What `download_content` does synchronously on the caller's thread:
the events it delivers before returning, whether
`threading.Thread(...).start()` was reached, and the state on return. -/
structure SubmitResult where
  events : List Event
  threadStarted : Bool
  state : MState
  deriving DecidableEq

/-- `DownloadManager.download_content(url, download_type, output_dir)`:
reject when `is_downloading`; reject when `os.path.isdir(output_dir)` is
false (`dirExists` models that check); otherwise set the busy flag and
start the daemon worker thread. -/
def download_content (s : MState) (url download_type output_dir : String)
    (dirExists : Bool) : SubmitResult :=
  if s.is_downloading then
    ⟨if s.errorOn then [Event.error busyMsg] else [], false, s⟩
  else if dirExists = false then
    ⟨if s.errorOn then
      [Event.error ("Output directory does not exist: " ++ output_dir)] else [],
     false, s⟩
  else
    ⟨[], true, { s with is_downloading := true }⟩

/-- Classification of an event as a terminal outcome (a completion or
error callback invocation), as opposed to a progress report. -/
def isOutcome : Event → Bool
  | Event.complete _ => true
  | Event.error _ => true
  | _ => false

/-- The `downloaded_bytes` fields carried by the progress events of a
trace, in delivery order. -/
def downloads (evs : List Event) : List Nat :=
  evs.filterMap fun e =>
    match e with
    | Event.progress _ _ d _ _ => some d
    | _ => none

/-- The byte sizes of the non-empty chunks delivered before the first
failing stream step (the chunks actually written by the loop). -/
def sizesBeforeFail : List StreamStep → List Nat
  | [] => []
  | StreamStep.chunk 0 :: rest => sizesBeforeFail rest
  | StreamStep.chunk (n + 1) :: rest => (n + 1) :: sizesBeforeFail rest
  | StreamStep.fail _ _ :: _ => []

/-- The first exception raised by the stream, if any. -/
def firstFail : List StreamStep → Option (Bool × String)
  | [] => none
  | StreamStep.chunk _ :: rest => firstFail rest
  | StreamStep.fail nw m :: _ => some (nw, m)

/-- Running sums of a list of chunk sizes, starting from `acc`: the
successive values of `downloaded_size`. -/
def sumsFrom (acc : Nat) : List Nat → List Nat
  | [] => []
  | a :: rest => (acc + a) :: sumsFrom (acc + a) rest

/-- Whether an event would be delivered given the registration flags of
`s`: progress-shaped events require a progress callback, completions a
completion callback, errors an error callback. -/
def keepEvent (s : MState) : Event → Bool
  | Event.progress _ _ _ _ _ => s.progressOn
  | Event.ydl _ => s.progressOn
  | Event.complete _ => s.completionOn
  | Event.error _ => s.errorOn

/-- The same manager state with every callback registered. -/
def fullCb (s : MState) : MState := ⟨true, true, true, s.is_downloading⟩

/-- Closed form of the progress part of an `_download_image` trace: one
normalized progress event per non-empty chunk written before the first
failure, carrying the running byte total. -/
def imageProgressSpec (s : MState) (env : ImageEnv) : List Event :=
  match env.connect with
  | some _ => []
  | none =>
      if s.progressOn then
        (sumsFrom 0 (sizesBeforeFail env.body)).map
          (mkProgress (env.contentLength.getD 0))
      else []

/-- Closed form of the terminal part of an `_download_image` trace: the
single completion or error callback invocation (empty when the relevant
callback is unregistered). -/
def imageOutcomeSpec (s : MState) (url output_path : String) (env : ImageEnv) :
    List Event :=
  match env.connect with
  | some e => if s.errorOn then [Event.error (netErrMsg url e)] else []
  | none =>
      match firstFail env.body with
      | some (nw, m) =>
          if s.errorOn then
            [Event.error (if nw then netErrMsg url m else genErrMsg url m)]
          else []
      | none =>
          if s.completionOn then
            [Event.complete (pathJoin output_path (imageFilename url))]
          else []

/-- Closed form of the terminal part of a `_download_video_audio` trace:
the single completion or error callback invocation (empty when the
relevant callback is unregistered). -/
def vaOutcomeSpec (s : MState) (url output_path : String) (env : VAEnv) :
    List Event :=
  match env.result with
  | none =>
      if s.completionOn then
        [Event.complete ("Download complete for " ++ url ++ " (check " ++
          output_path ++ ")")]
      else []
  | some e =>
      if s.errorOn then [Event.error ("Error downloading " ++ url ++ ": " ++ e)]
      else []

theorem downloads_nil : downloads [] = [] := rfl

theorem downloads_cons_progress (st : String) (t d : Nat) (p eta : String)
    (l : List Event) :
    downloads (Event.progress st t d p eta :: l) = d :: downloads l := rfl

theorem downloads_cons_ydl (d : String) (l : List Event) :
    downloads (Event.ydl d :: l) = downloads l := rfl

theorem downloads_cons_complete (p : String) (l : List Event) :
    downloads (Event.complete p :: l) = downloads l := rfl

theorem downloads_cons_error (m : String) (l : List Event) :
    downloads (Event.error m :: l) = downloads l := rfl

theorem downloads_append (l1 l2 : List Event) :
    downloads (l1 ++ l2) = downloads l1 ++ downloads l2 :=
  List.filterMap_append l1 l2 _

theorem downloads_map_mkProgress (total : Nat) (l : List Nat) :
    downloads (l.map (mkProgress total)) = l := by
  induction l with
  | nil => rfl
  | cons a rest ih =>
      simp only [List.map_cons, mkProgress, downloads_cons_progress, ih]

/-- The streaming loop of `_download_image` in closed form: progress
events at the running sums of the written chunk sizes, ending at the first
raised exception. -/
theorem imageLoop_eq (pOn : Bool) (total : Nat) (body : List StreamStep) (dl : Nat) :
    imageLoop pOn total body dl =
      ((if pOn then (sumsFrom dl (sizesBeforeFail body)).map (mkProgress total)
        else []),
       firstFail body) := by
  induction body generalizing dl with
  | nil => cases pOn <;> simp [imageLoop, sizesBeforeFail, firstFail, sumsFrom]
  | cons step rest ih =>
      cases step with
      | chunk n =>
          cases n with
          | zero =>
              simpa [imageLoop, sizesBeforeFail, firstFail] using ih dl
          | succ m =>
              cases pOn <;>
                simp [imageLoop, sizesBeforeFail, firstFail, sumsFrom, ih]
      | fail nw m =>
          cases pOn <;> simp [imageLoop, sizesBeforeFail, firstFail, sumsFrom]

/-- `_download_image` in closed form: the trace is the progress part
followed by the terminal part, and the busy flag is cleared. -/
theorem download_image_eq (s : MState) (url output_path : String) (env : ImageEnv) :
    download_image s url output_path env =
      (imageProgressSpec s env ++ imageOutcomeSpec s url output_path env,
       clearBusy s) := by
  rcases hc : env.connect with _ | e
  · rcases hf : firstFail env.body with _ | ⟨nw, m⟩ <;>
      simp [download_image, imageProgressSpec, imageOutcomeSpec, hc, hf,
        imageLoop_eq]
  · simp [download_image, imageProgressSpec, imageOutcomeSpec, hc]

theorem mem_sumsFrom_ge {acc x : Nat} {l : List Nat} (h : x ∈ sumsFrom acc l) :
    acc ≤ x := by
  induction l generalizing acc with
  | nil => simp [sumsFrom] at h
  | cons a rest ih =>
      simp only [sumsFrom, List.mem_cons] at h
      rcases h with h | h
      · omega
      · have := ih h
        omega

theorem chain_le_sumsFrom (acc : Nat) (l : List Nat) :
    List.Chain' (· ≤ ·) (sumsFrom acc l) := by
  induction l generalizing acc with
  | nil => simp [sumsFrom]
  | cons a rest ih =>
      rw [sumsFrom]
      refine List.chain'_cons'.mpr ⟨?_, ih (acc + a)⟩
      intro y hy
      exact mem_sumsFrom_ge (List.mem_of_mem_head? hy)

theorem all_dropLast {p : Event → Bool} {l : List Event} (h : l.all p = true) :
    l.dropLast.all p = true := by
  rw [List.all_eq_true] at h ⊢
  exact fun e he => h e ((List.dropLast_sublist l).subset he)

theorem trace_outcome_last {P O : List Event}
    (hP : (P.all fun e => !isOutcome e) = true)
    (hO : O = [] ∨ ∃ x, O = [x]) :
    ((P ++ O).dropLast.all fun e => !isOutcome e) = true := by
  rcases hO with h | ⟨x, h⟩ <;> subst h
  · rw [List.append_nil]
    exact all_dropLast hP
  · rw [List.dropLast_concat]
    exact hP

theorem all_not_outcome_imageProgressSpec (s : MState) (env : ImageEnv) :
    ((imageProgressSpec s env).all fun e => !isOutcome e) = true := by
  rcases hc : env.connect with _ | e
  · cases hp : s.progressOn <;>
      simp [imageProgressSpec, hc, hp, List.all_eq_true, mkProgress, isOutcome]
  · simp [imageProgressSpec, hc]

theorem all_not_outcome_hookEvents (pOn : Bool) (hooks : List String) :
    ((if pOn then hooks.map Event.ydl else []).all fun e => !isOutcome e) = true := by
  cases pOn <;> simp [List.all_eq_true, isOutcome]

theorem imageOutcomeSpec_shape (s : MState) (url output_path : String)
    (env : ImageEnv) :
    imageOutcomeSpec s url output_path env = [] ∨
      ∃ x, imageOutcomeSpec s url output_path env = [x] ∧ isOutcome x = true := by
  rcases hc : env.connect with _ | e
  · rcases hf : firstFail env.body with _ | ⟨nw, m⟩
    · cases hco : s.completionOn <;>
        simp [imageOutcomeSpec, hc, hf, hco, isOutcome]
    · cases he : s.errorOn <;> simp [imageOutcomeSpec, hc, hf, he, isOutcome]
  · cases he : s.errorOn <;> simp [imageOutcomeSpec, hc, he, isOutcome]

theorem downloads_imageOutcomeSpec (s : MState) (url output_path : String)
    (env : ImageEnv) :
    downloads (imageOutcomeSpec s url output_path env) = [] := by
  rcases imageOutcomeSpec_shape s url output_path env with h | ⟨x, h, hx⟩
  · rw [h]; rfl
  · rw [h]
    cases x <;> simp [isOutcome] at hx <;> rfl

/-- Claim C5: the two-chunk image scenario of the spec. With all callbacks
registered, the mocked 1000-byte response delivered as two 500-byte chunks
yields exactly two progress events (500 then 1000 bytes, 50.0% then
100.0%) followed by exactly one completion event carrying
`/tmp/out/x.jpg`, and the busy flag ends cleared. -/
theorem C5_two_chunk_image_scenario :
    download_image ⟨true, true, true, true⟩ "https://example.com/x.jpg" "/tmp/out"
      ⟨none, some 1000, [StreamStep.chunk 500, StreamStep.chunk 500]⟩ =
    ([Event.progress "downloading" 1000 500 "50.0%" "N/A",
      Event.progress "downloading" 1000 1000 "100.0%" "N/A",
      Event.complete "/tmp/out/x.jpg"], ⟨true, true, true, false⟩) := by
  decide

/-- Claim C3: on every terminal path of a worker run (completion, error
outcome, adapter exception, or the invalid-type branch) the busy flag is
reset to false, so a subsequent submission with an existing destination
directory is accepted (its thread is started and the busy flag is set
again). -/
theorem C3_busy_released_on_every_terminal_path (s : MState)
    (url download_type output_dir : String) (env : WorkerEnv)
    (url2 download_type2 output_dir2 : String) :
    (run_download_task s url download_type output_dir env).2.2.is_downloading
      = false ∧
    (download_content (run_download_task s url download_type output_dir env).2.2
        url2 download_type2 output_dir2 true).threadStarted = true ∧
    (download_content (run_download_task s url download_type output_dir env).2.2
        url2 download_type2 output_dir2 true).state.is_downloading = true := by
  have hstate :
      (run_download_task s url download_type output_dir env).2.2 = clearBusy s := by
    unfold run_download_task
    split
    · rfl
    · split
      · rw [download_image_eq]
      · rfl
  rw [hstate]
  refine ⟨rfl, ?_, ?_⟩ <;> simp [download_content, clearBusy]

/-- Claim C9: for a video or audio request the worker invokes the
extraction engine on exactly the requested URL, configured with 3 whole-job
retries, 3 per-fragment retries and `ignoreerrors` (skip failing
sub-items); audio requests use the `bestaudio/best` format and the FFmpeg
mp3/192 extraction postprocessor, video requests use the ranked
mp4-preferring format list. -/
theorem C9_extraction_adapter_config (s : MState)
    (url download_type output_dir : String) (env : WorkerEnv)
    (hk : download_type = "video" ∨ download_type = "audio") :
    (run_download_task s url download_type output_dir env).2.1 =
      some ⟨buildYdlOpts output_dir download_type, [url]⟩ ∧
    (buildYdlOpts output_dir download_type).retries = 3 ∧
    (buildYdlOpts output_dir download_type).fragment_retries = 3 ∧
    (buildYdlOpts output_dir download_type).ignoreerrors = true ∧
    (download_type = "audio" →
      (buildYdlOpts output_dir download_type).format = "bestaudio/best" ∧
      (buildYdlOpts output_dir download_type).postprocessors =
        [⟨"FFmpegExtractAudio", "mp3", "192"⟩] ∧
      (buildYdlOpts output_dir download_type).extract_audio = true) ∧
    (download_type = "video" →
      (buildYdlOpts output_dir download_type).format =
        "bestvideo[ext=mp4]+bestaudio[ext=m4a]/best[ext=mp4]/best") := by
  rcases hk with h | h <;> subst h <;>
    simp +decide [run_download_task, download_video_audio, buildYdlOpts]

/-- Witness for C9 at a concrete audio request. -/
theorem C9_extraction_adapter_config_witness :
    (("audio" : String) = "video" ∨ ("audio" : String) = "audio") ∧
    ((run_download_task ⟨true, true, true, true⟩ "https://e.com/v" "audio" "/d"
        ⟨⟨[], none⟩, ⟨none, none, []⟩⟩).2.1 =
      some ⟨buildYdlOpts "/d" "audio", ["https://e.com/v"]⟩ ∧
    (buildYdlOpts "/d" "audio").retries = 3 ∧
    (buildYdlOpts "/d" "audio").fragment_retries = 3 ∧
    (buildYdlOpts "/d" "audio").ignoreerrors = true ∧
    (("audio" : String) = "audio" →
      (buildYdlOpts "/d" "audio").format = "bestaudio/best" ∧
      (buildYdlOpts "/d" "audio").postprocessors =
        [⟨"FFmpegExtractAudio", "mp3", "192"⟩] ∧
      (buildYdlOpts "/d" "audio").extract_audio = true) ∧
    (("audio" : String) = "video" →
      (buildYdlOpts "/d" "audio").format =
        "bestvideo[ext=mp4]+bestaudio[ext=m4a]/best[ext=mp4]/best")) :=
  ⟨Or.inr rfl,
   C9_extraction_adapter_config ⟨true, true, true, true⟩ "https://e.com/v" "audio"
     "/d" ⟨⟨[], none⟩, ⟨none, none, []⟩⟩ (Or.inr rfl)⟩

/-- Claim C1 counterexample: a rejected submission does not produce zero
events. With an error callback registered and the busy flag set,
`download_content` synchronously invokes the error callback with the busy
message, so the rejected submission delivers one (outcome-shaped) event. -/
theorem C1_rejection_counterexample :
    (download_content ⟨true, true, true, true⟩ "https://example.com/x.jpg"
      "image" "/tmp/out" true).events = [Event.error busyMsg] ∧
    (download_content ⟨true, true, true, true⟩ "https://example.com/x.jpg"
      "image" "/tmp/out" true).events ≠ [] := by
  decide

/-- Claim C1 (amended): a submission made while `is_downloading` is true
returns synchronously without starting a worker thread, emits no
ProgressEvent and no completion, delivers exactly one error-callback
invocation carrying the busy message when an error callback is registered
(and nothing otherwise), leaves the manager state unchanged, and therefore
leaves the in-flight request's eventual worker outcome unchanged. -/
theorem C1_single_flight_rejection (s : MState)
    (url download_type output_dir : String) (dirExists : Bool)
    (h : s.is_downloading = true) :
    (download_content s url download_type output_dir dirExists).threadStarted
      = false ∧
    (download_content s url download_type output_dir dirExists).state = s ∧
    (download_content s url download_type output_dir dirExists).events =
      (if s.errorOn then [Event.error busyMsg] else []) ∧
    downloads (download_content s url download_type output_dir dirExists).events
      = [] ∧
    (∀ e ∈ (download_content s url download_type output_dir dirExists).events,
      isOutcome e = true) ∧
    (∀ url2 dtype2 dir2 env,
      run_download_task
          (download_content s url download_type output_dir dirExists).state
          url2 dtype2 dir2 env =
        run_download_task s url2 dtype2 dir2 env) := by
  cases he : s.errorOn <;>
    simp [download_content, h, he, isOutcome, downloads_cons_error, downloads_nil]

/-- Witness for C1 at a concrete busy state. -/
theorem C1_single_flight_rejection_witness :
    (⟨true, true, true, true⟩ : MState).is_downloading = true ∧
    ((download_content ⟨true, true, true, true⟩ "u" "image" "/d" true).threadStarted
      = false ∧
    (download_content ⟨true, true, true, true⟩ "u" "image" "/d" true).state =
      ⟨true, true, true, true⟩ ∧
    (download_content ⟨true, true, true, true⟩ "u" "image" "/d" true).events =
      (if (⟨true, true, true, true⟩ : MState).errorOn then [Event.error busyMsg]
       else []) ∧
    downloads (download_content ⟨true, true, true, true⟩ "u" "image" "/d"
      true).events = [] ∧
    (∀ e ∈ (download_content ⟨true, true, true, true⟩ "u" "image" "/d" true).events,
      isOutcome e = true) ∧
    (∀ url2 dtype2 dir2 env,
      run_download_task
          (download_content ⟨true, true, true, true⟩ "u" "image" "/d" true).state
          url2 dtype2 dir2 env =
        run_download_task ⟨true, true, true, true⟩ url2 dtype2 dir2 env)) :=
  ⟨rfl, C1_single_flight_rejection ⟨true, true, true, true⟩ "u" "image" "/d" true rfl⟩

/-- Claim C2 counterexample: a request whose content kind is not one of
video/audio/image is not rejected synchronously before any state change —
`download_content` sets the busy flag and starts the worker thread, and
only the worker detects the invalid type. -/
theorem C2_validation_counterexample :
    (download_content ⟨true, true, true, false⟩ "https://example.com/x"
      "document" "/tmp" true).threadStarted = true ∧
    (download_content ⟨true, true, true, false⟩ "https://example.com/x"
      "document" "/tmp" true).state.is_downloading = true := by
  decide

/-- Claim C2 (amended): the only synchronous pre-state-change validation is
the destination-directory check — when the directory does not exist the
request is rejected synchronously, no worker thread is created and the
state (busy flag included) is unchanged. URL validity is never checked
locally, and an unknown content kind is accepted at submission (worker
started, busy set to true); the worker then reports the invalid-type error
and resets the busy flag to false. -/
theorem C2_synchronous_validation (s : MState)
    (url download_type output_dir : String) (env : WorkerEnv)
    (h : s.is_downloading = false) :
    ((download_content s url download_type output_dir false).threadStarted
        = false ∧
      (download_content s url download_type output_dir false).state = s ∧
      (download_content s url download_type output_dir false).events =
        (if s.errorOn then
          [Event.error ("Output directory does not exist: " ++ output_dir)]
         else [])) ∧
    ((download_content s url download_type output_dir true).threadStarted
        = true ∧
      (download_content s url download_type output_dir true).state.is_downloading
        = true ∧
      (download_content s url download_type output_dir true).events = []) ∧
    (download_type ≠ "video" → download_type ≠ "audio" → download_type ≠ "image" →
      (run_download_task
          (download_content s url download_type output_dir true).state
          url download_type output_dir env).1 =
        (if s.errorOn then
          [Event.error ("Invalid download type: " ++ download_type)] else []) ∧
      (run_download_task
          (download_content s url download_type output_dir true).state
          url download_type output_dir env).2.2.is_downloading = false) := by
  refine ⟨?_, ?_, ?_⟩
  · simp [download_content, h]
  · simp [download_content, h]
  · intro h1 h2 h3
    simp [download_content, h, run_download_task, h1, h2, h3, clearBusy]

/-- Witness for C2 at a concrete idle state and unknown content kind. -/
theorem C2_synchronous_validation_witness :
    (⟨true, true, true, false⟩ : MState).is_downloading = false ∧
    (((download_content ⟨true, true, true, false⟩ "u" "document" "/d"
          false).threadStarted = false ∧
      (download_content ⟨true, true, true, false⟩ "u" "document" "/d" false).state
        = ⟨true, true, true, false⟩ ∧
      (download_content ⟨true, true, true, false⟩ "u" "document" "/d"
          false).events =
        (if (⟨true, true, true, false⟩ : MState).errorOn then
          [Event.error ("Output directory does not exist: " ++ "/d")] else [])) ∧
    ((download_content ⟨true, true, true, false⟩ "u" "document" "/d"
          true).threadStarted = true ∧
      (download_content ⟨true, true, true, false⟩ "u" "document" "/d"
          true).state.is_downloading = true ∧
      (download_content ⟨true, true, true, false⟩ "u" "document" "/d"
          true).events = []) ∧
    (("document" : String) ≠ "video" → ("document" : String) ≠ "audio" →
        ("document" : String) ≠ "image" →
      (run_download_task
          (download_content ⟨true, true, true, false⟩ "u" "document" "/d"
            true).state "u" "document" "/d" ⟨⟨[], none⟩, ⟨none, none, []⟩⟩).1 =
        (if (⟨true, true, true, false⟩ : MState).errorOn then
          [Event.error ("Invalid download type: " ++ "document")] else []) ∧
      (run_download_task
          (download_content ⟨true, true, true, false⟩ "u" "document" "/d"
            true).state "u" "document" "/d"
          ⟨⟨[], none⟩, ⟨none, none, []⟩⟩).2.2.is_downloading = false)) :=
  ⟨rfl, C2_synchronous_validation ⟨true, true, true, false⟩ "u" "document" "/d"
    ⟨⟨[], none⟩, ⟨none, none, []⟩⟩ rfl⟩

/-- Claim C4: with completion and error callbacks registered, every worker
run for a valid content kind delivers exactly one terminal outcome event
(a completion or an error), it is the last event of the trace, and every
modelled failure of the environment (connection error, HTTP error status,
mid-stream network or I/O failure, extraction-engine exception) is
converted into that error event rather than escaping — the worker function
is total and every branch ends in the single outcome event. -/
theorem C4_exactly_one_outcome (s : MState)
    (url download_type output_dir : String) (env : WorkerEnv)
    (hc : s.completionOn = true) (he : s.errorOn = true)
    (hk : download_type = "video" ∨ download_type = "audio" ∨
      download_type = "image") :
    ∃ front e,
      (run_download_task s url download_type output_dir env).1 = front ++ [e] ∧
      isOutcome e = true ∧
      (front.all fun x => !isOutcome x) = true := by
  have hva : ∀ h : download_type = "video" ∨ download_type = "audio",
      ∃ front e,
        (run_download_task s url download_type output_dir env).1 = front ++ [e] ∧
        isOutcome e = true ∧ (front.all fun x => !isOutcome x) = true := by
    intro hvaK
    rw [run_download_task, if_pos hvaK]
    refine ⟨if s.progressOn then env.va.hooks.map Event.ydl else [], ?_⟩
    rcases hr : env.va.result with _ | err
    · exact ⟨Event.complete ("Download complete for " ++ url ++ " (check " ++
        output_dir ++ ")"),
        by simp [download_video_audio, hr, hc], rfl,
        all_not_outcome_hookEvents s.progressOn env.va.hooks⟩
    · exact ⟨Event.error ("Error downloading " ++ url ++ ": " ++ err),
        by simp [download_video_audio, hr, he], rfl,
        all_not_outcome_hookEvents s.progressOn env.va.hooks⟩
  rcases hk with h | h | h
  · exact hva (Or.inl h)
  · exact hva (Or.inr h)
  · have hni : ¬ (download_type = "video" ∨ download_type = "audio") := by
      subst h; decide
    rw [run_download_task, if_neg hni, if_pos h]
    rw [download_image_eq]
    rcases imageOutcomeSpec_shape s url output_dir env.img with hsh | ⟨x, hsh, hx⟩
    · exfalso
      rcases hco : env.img.connect with _ | e
      · rcases hf : firstFail env.img.body with _ | ⟨nw, m⟩ <;>
          simp [imageOutcomeSpec, hco, hf, hc, he] at hsh
      · simp [imageOutcomeSpec, hco, he] at hsh
    · exact ⟨imageProgressSpec s env.img, x, by simp [hsh], hx,
        all_not_outcome_imageProgressSpec s env.img⟩

/-- `_download_video_audio` in closed form. -/
theorem download_video_audio_eq (s : MState)
    (url output_path download_type : String) (env : VAEnv) :
    download_video_audio s url output_path download_type env =
      ((if s.progressOn then env.hooks.map Event.ydl else []) ++
        vaOutcomeSpec s url output_path env,
       some ⟨buildYdlOpts output_path download_type, [url]⟩, clearBusy s) := rfl

theorem vaOutcomeSpec_shape (s : MState) (url output_path : String)
    (env : VAEnv) :
    vaOutcomeSpec s url output_path env = [] ∨
      ∃ x, vaOutcomeSpec s url output_path env = [x] ∧ isOutcome x = true := by
  rcases hr : env.result with _ | e
  · cases hco : s.completionOn <;> simp [vaOutcomeSpec, hr, hco, isOutcome]
  · cases he : s.errorOn <;> simp [vaOutcomeSpec, hr, he, isOutcome]

theorem progress_not_mem_of_outcome_shape {l : List Event}
    (hl : l = [] ∨ ∃ x, l = [x] ∧ isOutcome x = true)
    (st : String) (t d : Nat) (p eta : String) :
    Event.progress st t d p eta ∉ l := by
  rcases hl with h | ⟨x, h, hx⟩ <;> subst h
  · simp
  · simp only [List.mem_singleton]
    intro heq
    rw [← heq] at hx
    simp [isOutcome] at hx

/-- Witness for C4 at a concrete image request whose stream fails midway. -/
theorem C4_exactly_one_outcome_witness :
    (⟨true, true, true, true⟩ : MState).completionOn = true ∧
    (⟨true, true, true, true⟩ : MState).errorOn = true ∧
    (("image" : String) = "video" ∨ ("image" : String) = "audio" ∨
      ("image" : String) = "image") ∧
    (∃ front e,
      (run_download_task ⟨true, true, true, true⟩ "https://e.com/a.png" "image"
        "/d" ⟨⟨[], none⟩,
          ⟨none, some 100,
            [StreamStep.chunk 40, StreamStep.fail true "reset"]⟩⟩).1 =
        front ++ [e] ∧
      isOutcome e = true ∧
      (front.all fun x => !isOutcome x) = true) :=
  ⟨rfl, rfl, Or.inr (Or.inr rfl),
   C4_exactly_one_outcome ⟨true, true, true, true⟩ "https://e.com/a.png" "image"
     "/d" ⟨⟨[], none⟩, ⟨none, some 100,
       [StreamStep.chunk 40, StreamStep.fail true "reset"]⟩⟩
     rfl rfl (Or.inr (Or.inr rfl))⟩

/-- Claim C6: in every image trace, the total reported by each progress
event is the content-length header value (0, treated as unknown, when the
header is absent); the sequence of reported downloaded sizes is exactly
the running sums of the byte lengths of the written chunks; the percent
field equals downloaded/total*100 rendered to one decimal whenever the
total is a known positive value, is "N/A" whenever the header is absent,
and is only ever computed when the total is positive. -/
theorem C6_direct_stream_progress (s : MState) (url output_dir : String)
    (env : ImageEnv) (hp : s.progressOn = true) :
    (env.connect = none →
      downloads (download_image s url output_dir env).1 =
        sumsFrom 0 (sizesBeforeFail env.body)) ∧
    (∀ st t d p eta,
      Event.progress st t d p eta ∈ (download_image s url output_dir env).1 →
      t = env.contentLength.getD 0 ∧
      (env.contentLength = none → p = "N/A") ∧
      (∀ T, env.contentLength = some T → 0 < T → p = percentStr d T) ∧
      (p ≠ "N/A" → 0 < env.contentLength.getD 0)) := by
  rw [download_image_eq]
  constructor
  · intro hc
    rw [downloads_append, downloads_imageOutcomeSpec, List.append_nil]
    simp [imageProgressSpec, hc, hp, downloads_map_mkProgress]
  · intro st t d p eta hmem
    rw [List.mem_append] at hmem
    rcases hmem with hmem | hmem
    · rcases hc : env.connect with _ | e
      · simp only [imageProgressSpec, hc, hp, if_true] at hmem
        rcases List.mem_map.mp hmem with ⟨d', _, heq⟩
        simp only [mkProgress, Event.progress.injEq] at heq
        obtain ⟨hst, ht, hd, hp2, heta⟩ := heq
        subst ht
        subst hd
        subst hp2
        refine ⟨rfl, ?_, ?_, ?_⟩
        · intro hnone
          simp [percentField, hnone]
        · intro T hT hTpos
          simp [percentField, hT, hTpos]
        · intro hne
          rcases Nat.eq_zero_or_pos (env.contentLength.getD 0) with h0 | h0
          · exact absurd (by simp [percentField, h0]) hne
          · exact h0
      · simp [imageProgressSpec, hc] at hmem
    · exact absurd hmem (progress_not_mem_of_outcome_shape
        (imageOutcomeSpec_shape s url output_dir env) st t d p eta)

/-- Witness for C6 at the concrete two-chunk request. -/
theorem C6_direct_stream_progress_witness :
    (⟨true, true, true, true⟩ : MState).progressOn = true ∧
    ((⟨none, some 1000, [StreamStep.chunk 500, StreamStep.chunk 500]⟩ :
        ImageEnv).connect = none →
      downloads (download_image ⟨true, true, true, true⟩ "https://e.com/x.jpg"
        "/tmp/out"
        ⟨none, some 1000, [StreamStep.chunk 500, StreamStep.chunk 500]⟩).1 =
        sumsFrom 0 (sizesBeforeFail
          [StreamStep.chunk 500, StreamStep.chunk 500])) ∧
    (∀ st t d p eta,
      Event.progress st t d p eta ∈ (download_image ⟨true, true, true, true⟩
        "https://e.com/x.jpg" "/tmp/out"
        ⟨none, some 1000, [StreamStep.chunk 500, StreamStep.chunk 500]⟩).1 →
      t = (some 1000 : Option Nat).getD 0 ∧
      ((some 1000 : Option Nat) = none → p = "N/A") ∧
      (∀ T, (some 1000 : Option Nat) = some T → 0 < T → p = percentStr d T) ∧
      (p ≠ "N/A" → 0 < (some 1000 : Option Nat).getD 0)) :=
  ⟨rfl, (C6_direct_stream_progress ⟨true, true, true, true⟩ "https://e.com/x.jpg"
    "/tmp/out" ⟨none, some 1000, [StreamStep.chunk 500, StreamStep.chunk 500]⟩
    rfl).1,
   (C6_direct_stream_progress ⟨true, true, true, true⟩ "https://e.com/x.jpg"
    "/tmp/out" ⟨none, some 1000, [StreamStep.chunk 500, StreamStep.chunk 500]⟩
    rfl).2⟩

/-- Claim C7: the destination filename of an image request is the last
path segment of the URL; when that segment is empty (no path, as for a
bare domain) or has no `.` it falls back to the fixed default
`downloaded_image.jpg`; and on a successful run the completion event
carries that filename joined under the requested destination directory. -/
theorem C7_filename_derivation (s : MState) (url output_dir : String)
    (env : ImageEnv) (hcomp : s.completionOn = true)
    (hconn : env.connect = none) (hff : firstFail env.body = none) :
    ((basename (urlparse_path url)).data = [] ∨
        (basename (urlparse_path url)).data.contains '.' = false →
      imageFilename url = "downloaded_image.jpg") ∧
    ((basename (urlparse_path url)).data ≠ [] →
      (basename (urlparse_path url)).data.contains '.' = true →
      imageFilename url = basename (urlparse_path url)) ∧
    (download_image s url output_dir env).1.getLast? =
      some (Event.complete (pathJoin output_dir (imageFilename url))) := by
  refine ⟨?_, ?_, ?_⟩
  · intro h
    rcases h with h | h
    · simp only [imageFilename]
      rw [h]
      simp
    · simp only [imageFilename, h, Bool.not_false, Bool.or_true, if_true]
  · intro h1 h2
    simp only [imageFilename, h2, Bool.not_true, Bool.or_false]
    rcases hd : (basename (urlparse_path url)).data with _ | ⟨c, cs⟩
    · exact absurd hd h1
    · simp
  · rw [download_image_eq]
    have hout : imageOutcomeSpec s url output_dir env =
        [Event.complete (pathJoin output_dir (imageFilename url))] := by
      simp [imageOutcomeSpec, hconn, hff, hcomp]
    rw [hout]
    exact List.getLast?_concat _

/-- Witness for C7 at a bare-domain URL (no path segment). -/
theorem C7_filename_derivation_witness :
    (⟨true, true, true, true⟩ : MState).completionOn = true ∧
    ((⟨none, some 10, [StreamStep.chunk 10]⟩ : ImageEnv).connect = none) ∧
    firstFail [StreamStep.chunk 10] = none ∧
    (((basename (urlparse_path "https://example.com")).data = [] ∨
        (basename (urlparse_path "https://example.com")).data.contains '.'
          = false →
      imageFilename "https://example.com" = "downloaded_image.jpg") ∧
    ((basename (urlparse_path "https://example.com")).data ≠ [] →
      (basename (urlparse_path "https://example.com")).data.contains '.' = true →
      imageFilename "https://example.com" =
        basename (urlparse_path "https://example.com")) ∧
    (download_image ⟨true, true, true, true⟩ "https://example.com" "/tmp/out"
      ⟨none, some 10, [StreamStep.chunk 10]⟩).1.getLast? =
      some (Event.complete (pathJoin "/tmp/out"
        (imageFilename "https://example.com")))) :=
  ⟨rfl, rfl, rfl,
   C7_filename_derivation ⟨true, true, true, true⟩ "https://example.com"
     "/tmp/out" ⟨none, some 10, [StreamStep.chunk 10]⟩ rfl rfl rfl⟩

/-- Claim C8: in every direct-stream (image) trace the downloaded byte
counts of the progress events are monotonically non-decreasing (they are
natural numbers, hence non-negative), and no event follows the terminal
outcome event — every non-final event of an image trace and of a
video/audio trace is a non-outcome (progress) event. -/
theorem C8_progress_ordering (s s2 : MState) (url output_dir : String)
    (env : ImageEnv) (url2 output_path2 download_type2 : String)
    (env2 : VAEnv) :
    List.Chain' (· ≤ ·) (downloads (download_image s url output_dir env).1) ∧
    (((download_image s url output_dir env).1.dropLast.all
      fun e => !isOutcome e) = true) ∧
    (((download_video_audio s2 url2 output_path2 download_type2
        env2).1.dropLast.all fun e => !isOutcome e) = true) := by
  refine ⟨?_, ?_, ?_⟩
  · rw [download_image_eq]
    simp only [downloads_append, downloads_imageOutcomeSpec, List.append_nil]
    rcases hc : env.connect with _ | e
    · cases hp : s.progressOn
      · simp [imageProgressSpec, hc, hp, downloads_nil]
      · simp only [imageProgressSpec, hc, hp, if_true, downloads_map_mkProgress]
        exact chain_le_sumsFrom 0 _
    · simp [imageProgressSpec, hc, downloads_nil]
  · rw [download_image_eq]
    rcases imageOutcomeSpec_shape s url output_dir env with h | ⟨x, h, _⟩
    · exact trace_outcome_last (all_not_outcome_imageProgressSpec s env)
        (Or.inl h)
    · exact trace_outcome_last (all_not_outcome_imageProgressSpec s env)
        (Or.inr ⟨x, h⟩)
  · rw [download_video_audio_eq]
    rcases vaOutcomeSpec_shape s2 url2 output_path2 env2 with h | ⟨x, h, _⟩
    · exact trace_outcome_last
        (all_not_outcome_hookEvents s2.progressOn env2.hooks) (Or.inl h)
    · exact trace_outcome_last
        (all_not_outcome_hookEvents s2.progressOn env2.hooks) (Or.inr ⟨x, h⟩)

theorem filter_keepEvent_map_ydl (s : MState) (hooks : List String) :
    (hooks.map Event.ydl).filter (keepEvent s) =
      if s.progressOn then hooks.map Event.ydl else [] := by
  induction hooks with
  | nil => cases s.progressOn <;> simp
  | cons a rest ih =>
      simp only [List.map_cons, List.filter_cons, keepEvent, ih]
      cases s.progressOn <;> simp

theorem filter_keepEvent_map_mkProgress (s : MState) (total : Nat)
    (l : List Nat) :
    (l.map (mkProgress total)).filter (keepEvent s) =
      if s.progressOn then l.map (mkProgress total) else [] := by
  induction l with
  | nil => cases s.progressOn <;> simp
  | cons a rest ih =>
      simp only [List.map_cons, List.filter_cons, mkProgress, keepEvent, ih]
      cases s.progressOn <;> simp [mkProgress]

theorem filter_keepEvent_error (s : MState) (m : String) :
    [Event.error m].filter (keepEvent s) =
      if s.errorOn then [Event.error m] else [] := by
  cases he : s.errorOn <;> simp [List.filter_cons, keepEvent, he]

theorem filter_keepEvent_complete (s : MState) (p : String) :
    [Event.complete p].filter (keepEvent s) =
      if s.completionOn then [Event.complete p] else [] := by
  cases hc : s.completionOn <;> simp [List.filter_cons, keepEvent, hc]

theorem imageOutcomeSpec_filter (s : MState) (url output_path : String)
    (env : ImageEnv) :
    imageOutcomeSpec s url output_path env =
      (imageOutcomeSpec (fullCb s) url output_path env).filter (keepEvent s) := by
  rcases hc : env.connect with _ | e
  · rcases hf : firstFail env.body with _ | ⟨nw, m⟩
    · simp [imageOutcomeSpec, hc, hf, fullCb, filter_keepEvent_complete]
    · simp [imageOutcomeSpec, hc, hf, fullCb, filter_keepEvent_error]
  · simp [imageOutcomeSpec, hc, fullCb, filter_keepEvent_error]

theorem imageProgressSpec_filter (s : MState) (env : ImageEnv) :
    imageProgressSpec s env =
      (imageProgressSpec (fullCb s) env).filter (keepEvent s) := by
  rcases hc : env.connect with _ | e
  · simp [imageProgressSpec, hc, fullCb, filter_keepEvent_map_mkProgress]
  · simp [imageProgressSpec, hc]

theorem vaOutcomeSpec_filter (s : MState) (url output_path : String)
    (env : VAEnv) :
    vaOutcomeSpec s url output_path env =
      (vaOutcomeSpec (fullCb s) url output_path env).filter (keepEvent s) := by
  rcases hr : env.result with _ | e
  · simp [vaOutcomeSpec, hr, fullCb, filter_keepEvent_complete]
  · simp [vaOutcomeSpec, hr, fullCb, filter_keepEvent_error]

/-- Claim C10: the three callbacks all default to `None`
(`DownloadManager()` registers none of them), and for both public-facing
operations the run with any subset of callbacks registered completes with
the same control flow as the fully-registered run — same thread-start
decision, same engine invocation, same final busy flag — delivering
exactly the fully-registered events that pass the registration filter:
events whose callback is `None` are silently dropped, and no operation
faults (every modelled operation is a total function). -/
theorem C10_optional_callbacks_safe :
    initState.progressOn = false ∧ initState.completionOn = false ∧
    initState.errorOn = false ∧ initState.is_downloading = false ∧
    (∀ (s : MState) (url download_type output_dir : String) (dirExists : Bool),
      (download_content s url download_type output_dir dirExists).events =
        (download_content (fullCb s) url download_type output_dir
          dirExists).events.filter (keepEvent s) ∧
      (download_content s url download_type output_dir dirExists).threadStarted =
        (download_content (fullCb s) url download_type output_dir
          dirExists).threadStarted ∧
      (download_content s url download_type output_dir
          dirExists).state.is_downloading =
        (download_content (fullCb s) url download_type output_dir
          dirExists).state.is_downloading) ∧
    (∀ (s : MState) (url download_type output_dir : String) (env : WorkerEnv),
      (run_download_task s url download_type output_dir env).1 =
        (run_download_task (fullCb s) url download_type output_dir env).1.filter
          (keepEvent s) ∧
      (run_download_task s url download_type output_dir env).2.1 =
        (run_download_task (fullCb s) url download_type output_dir env).2.1 ∧
      (run_download_task s url download_type output_dir env).2.2.is_downloading =
        (run_download_task (fullCb s) url download_type output_dir
          env).2.2.is_downloading) := by
  refine ⟨rfl, rfl, rfl, rfl, ?_, ?_⟩
  · intro s url download_type output_dir dirExists
    cases hb : s.is_downloading
    · cases dirExists
      · refine ⟨?_, ?_, ?_⟩ <;>
          simp [download_content, fullCb, hb, filter_keepEvent_error]
      · refine ⟨?_, ?_, ?_⟩ <;> simp [download_content, fullCb, hb]
    · refine ⟨?_, ?_, ?_⟩ <;>
        simp [download_content, fullCb, hb, filter_keepEvent_error]
  · intro s url download_type output_dir env
    by_cases hva : download_type = "video" ∨ download_type = "audio"
    · rw [run_download_task, run_download_task, if_pos hva, if_pos hva]
      rw [download_video_audio_eq, download_video_audio_eq]
      refine ⟨?_, rfl, rfl⟩
      rw [List.filter_append, ← vaOutcomeSpec_filter]
      simp [fullCb, filter_keepEvent_map_ydl]
    · by_cases him : download_type = "image"
      · rw [run_download_task, run_download_task, if_neg hva, if_neg hva,
          if_pos him, if_pos him]
        rw [download_image_eq, download_image_eq]
        refine ⟨?_, rfl, rfl⟩
        simp only [List.filter_append, ← imageOutcomeSpec_filter,
          ← imageProgressSpec_filter]
      · rw [run_download_task, run_download_task, if_neg hva, if_neg hva,
          if_neg him, if_neg him]
        refine ⟨?_, rfl, rfl⟩
        simp [fullCb, filter_keepEvent_error]

end Downloader
